import Mathlib

/-!
Shallow embedding of `src/HTTPSClient.hpp` (ESP8266 HTTPS client core):
the `BodyStream` bounded body reader, the request descriptor, the
method-to-wire-token mapping, the URL concatenation, the clock
synchronizer `setClock`, and the staged `sendRequest` pipeline.

External collaborators (the `Timer` polling loop and the `WiFiManager`
connectivity provider) are modelled by the contracts the design document
states for them: the polling loop evaluates the predicate once per tick,
stops the instant the predicate returns true, and fires the timeout
callback exactly once if the deadline elapses first; the connectivity
provider calls its callback with a status value.  The ESP8266 is a
32-bit platform, so `size_t` is modelled as a natural number reduced
modulo 2^32 where C performs an integer-to-`size_t` conversion.
-/

/-- `size_t` modulus on the ESP8266 (32-bit platform). -/
def sizeTMod : Nat := 2 ^ 32

/-- The value a C `int` takes after conversion to `size_t`:
reduction modulo 2^32 (C implicit conversion semantics for
`(size_t)this->bytesLeft` in `BodyStream::readBytes`). -/
def toSizeT (i : Int) : Nat := (i % (sizeTMod : Int)).toNat

/-- State of a `BodyStream` (the spec's StreamingBodyReader): the
`bytesLeft` counter, initialized in the constructor from
`httpClient->getSize()` (the declared content length, a C `int` that is
negative when the length is unknown). -/
structure BodyStream where
  bytesLeft : Int
deriving DecidableEq

/-- `BodyStream::BodyStream`: `bytesLeft = httpClient->getSize()`. -/
def BodyStream.init (declaredSize : Int) : BodyStream := ⟨declaredSize⟩

/-- Result of one `BodyStream::readBytes` call: the returned count, the
updated stream state, and whether the underlying connection was asked
for bytes at all. -/
structure ReadResult where
  count : Nat
  stream : BodyStream
  connTouched : Bool
deriving DecidableEq

/-- `BodyStream::readBytes(buffer, length)`.  `connRead n` models
`wifiClient->readBytes(buffer, n)`: the number of bytes the connection
actually delivers when asked for `n`.  Mirrors the source: return 0 at
`bytesLeft == 0`; otherwise request `min((size_t)bytesLeft, length)`
bytes, decrement `bytesLeft` by the count read only when
`bytesLeft > 0`, and return the count. -/
def BodyStream.readBytes (s : BodyStream) (connRead : Nat → Nat)
    (length : Nat) : ReadResult :=
  if s.bytesLeft = 0 then ⟨0, s, false⟩
  else
    let bytesRead := connRead (min (toSizeT s.bytesLeft) length)
    if s.bytesLeft > 0 then ⟨bytesRead, ⟨s.bytesLeft - bytesRead⟩, true⟩
    else ⟨bytesRead, s, true⟩

/-- `BodyStream::available()`: 0 when `httpClient->connected()` is
false, otherwise `bytesLeft`.  The connection state is passed in as the
`connected` flag. -/
def BodyStream.available (s : BodyStream) (connected : Bool) : Int :=
  if connected = false then 0 else s.bytesLeft

/-- `HTTPMethod` enumerator values from the source `enum`.  A C++
plain enum variable can hold any value of the underlying integer type,
so the method is modelled as an `Int` with these named constants. -/
def HTTP_GET : Int := 0

/-- `HTTP_HEAD` enumerator value. -/
def HTTP_HEAD : Int := 1

/-- `HTTP_POST` enumerator value. -/
def HTTP_POST : Int := 2

/-- `HTTP_PUT` enumerator value. -/
def HTTP_PUT : Int := 3

/-- `HTTP_PATCH` enumerator value. -/
def HTTP_PATCH : Int := 4

/-- `HTTP_DELETE` enumerator value. -/
def HTTP_DELETE : Int := 5

/-- `HTTP_OPTIONS` enumerator value. -/
def HTTP_OPTIONS : Int := 6

/-- `HTTPSClient::readMethod`: the `switch` on the method value writing
the wire token; every case not matched by an enumerator falls to the
`default` branch, which writes `"GET"`. -/
def readMethod (method : Int) : String :=
  if method = HTTP_OPTIONS then "OPTIONS"
  else if method = HTTP_DELETE then "DELETE"
  else if method = HTTP_PATCH then "PATCH"
  else if method = HTTP_PUT then "PUT"
  else if method = HTTP_POST then "POST"
  else if method = HTTP_HEAD then "HEAD"
  else "GET"

/-- The URL built by `sendRequest`: `strcpy(url, baseUrl)` followed by
`strcat(url, path)`, i.e. the concatenation of the two strings. -/
def buildUrl (baseUrl path : String) : String := baseUrl ++ path

/-- Capacity of the stack buffer `char url[strlen(baseUrl) +
strlen(path) + 1]` the source declares for the URL: a runtime-computed
(dynamically-sized) capacity derived from the two inputs. -/
def urlBufCapacity (baseUrl path : String) : Nat :=
  baseUrl.length + path.length + 1

/-- Number of bytes `strcpy` + `strcat` actually store in the URL
buffer: the concatenated characters plus the terminating NUL. -/
def urlBytesWritten (baseUrl path : String) : Nat :=
  (buildUrl baseUrl path).length + 1

/-- The clock-sync sanity threshold from `setClock`:
`8 * 3600 * 2` seconds. -/
def clockThreshold : Int := 8 * 3600 * 2

/-- Modelled from the spec: the `Timer::setOnLoopUntil` polling
collaborator (its implementation lives outside this repository).  Per
the design document's contract, the predicate is evaluated once per
loop tick, polling stops the instant the predicate returns true, and
the timeout callback fires exactly once if the deadline elapses first.
`ticks` is the sequence of `time(nullptr)` observations on the ticks
that occur before the deadline; the predicate is the one `setClock`
registers, which invokes `onClockSet(true)` when the observed time
reaches `clockThreshold`, while the timeout callback invokes
`onClockSet(false)`.  The result is the list of `onClockSet`
invocations, each tagged with the index of the tick (or, for the
timeout, the number of ticks that elapsed). -/
def pollEvents (i : Nat) : List Int → List (Nat × Bool)
  | [] => [(i, false)]
  | t :: ts =>
    if clockThreshold ≤ t then [(i, true)] else pollEvents (i + 1) ts

/-- `HTTPSClient::setClock`: the trace of `onClockSet` invocations
produced by the registered predicate and timeout callback, given the
clock observations `ticks` on the loop ticks before the deadline. -/
def setClockEvents (ticks : List Int) : List (Nat × Bool) :=
  pollEvents 0 ticks

theorem pollEvents_singleton (ticks : List Int) :
    ∀ i, ∃ j b, pollEvents i ticks = [(j, b)] := by
  induction ticks with
  | nil => intro i; exact ⟨i, false, rfl⟩
  | cons t ts ih =>
    intro i
    by_cases h : clockThreshold ≤ t
    · exact ⟨i, true, by simp [pollEvents, h]⟩
    · obtain ⟨j, b, hj⟩ := ih (i + 1)
      exact ⟨j, b, by simp [pollEvents, h, hj]⟩

theorem pollEvents_timeout (ticks : List Int)
    (h : ∀ t ∈ ticks, t < clockThreshold) :
    ∀ i, pollEvents i ticks = [(i + ticks.length, false)] := by
  induction ticks with
  | nil => intro i; simp [pollEvents]
  | cons t ts ih =>
    intro i
    have ht : ¬ clockThreshold ≤ t := by
      have := h t (List.mem_cons_self t ts)
      omega
    have hts : ∀ u ∈ ts, u < clockThreshold := fun u hu =>
      h u (List.mem_cons_of_mem t hu)
    simp only [pollEvents, if_neg ht, ih hts]
    have hlen : i + 1 + ts.length = i + (t :: ts).length := by
      simp only [List.length_cons]; omega
    rw [hlen]

theorem pollEvents_first_hit (ticks : List Int) :
    ∀ (j : Nat) (hj : j < ticks.length),
    (∀ k (hk : k < j), ticks.get ⟨k, Nat.lt_trans hk hj⟩ < clockThreshold) →
    clockThreshold ≤ ticks.get ⟨j, hj⟩ →
    ∀ i, pollEvents i ticks = [(i + j, true)] := by
  induction ticks with
  | nil => intro j hj; simp at hj
  | cons t ts ih =>
    intro j hj hearlier hhit i
    cases j with
    | zero =>
      simp only [List.get] at hhit
      simp [pollEvents, hhit]
    | succ k =>
      have ht : t < clockThreshold := by
        have := hearlier 0 (Nat.succ_pos k)
        simpa using this
      have hk : k < ts.length := by
        simpa [List.length_cons, Nat.succ_lt_succ_iff] using hj
      have hearlier' : ∀ m (hm : m < k),
          ts.get ⟨m, Nat.lt_trans hm hk⟩ < clockThreshold := by
        intro m hm
        have := hearlier (m + 1) (Nat.succ_lt_succ hm)
        simpa using this
      have hhit' : clockThreshold ≤ ts.get ⟨k, hk⟩ := by
        simpa using hhit
      have := ih k hk hearlier' hhit' (i + 1)
      simp only [pollEvents, if_neg (not_le.mpr ht), this]
      have hsum : i + 1 + k = i + (k + 1) := by omega
      rw [hsum]

/-- `wl_status_t` values the WiFi connectivity collaborator can report
(ESP8266 core); `WL_CONNECTED` is the distinguished connected state the
source compares against. -/
inductive WlStatus where
  | idleStatus
  | noSsidAvail
  | scanCompleted
  | connected
  | connectFailed
  | connectionLost
  | wrongPassword
  | disconnected
deriving DecidableEq

/-- The `Request` descriptor from the source: base URL, path, method
(the enum value), body text, and ordered header pairs. -/
structure Request where
  baseUrl : String
  path : String
  method : Int
  body : String
  headers : List (String × String)

/-- The `Response` struct: `error` (`const char *`, `nullptr` modelled
as `none`), `statusCode` (`int`), and `body` (`BodyStream *`, `nullptr`
modelled as `none`, otherwise the state of the freshly constructed
`BodyStream`). -/
structure Response where
  error : Option String
  statusCode : Int
  body : Option BodyStream
deriving DecidableEq

/-- Which source branch of `sendRequest` invoked `onResponse`. -/
inductive Branch where
  | wifiFail
  | clockFail
  | openFail
  | codeNonPos
  | codeSuccess
deriving DecidableEq

/-- Behaviour of the external collaborators for one `sendRequest`
invocation: the clock observations the polling loop sees before its
deadline, the result of `http.begin` (connection open), the code
`http.sendRequest` returns, the engine's `errorToString`, and the
declared content length `http.getSize()` reports. -/
structure Env where
  clockTicks : List Int
  openOk : Bool
  httpCode : Int
  errorText : Int → String
  declaredLength : Int

/-- Observable outcome of a `sendRequest` invocation: the `onResponse`
invocations (each tagged with the branch that fired it), the number of
calls to the clock-sync collaborator (`setClock`), the number of
connection-open attempts (`http.begin`), the number of issued exchanges
(`http.sendRequest`), and the URLs handed to `http.begin`. -/
structure SendResult where
  responses : List (Branch × Response)
  setClockCalls : Nat
  openCalls : Nat
  issueCalls : Nat
  openUrls : List String
deriving DecidableEq

/-- The empty trace. -/
def SendResult.empty : SendResult := ⟨[], 0, 0, 0, []⟩

/-- Concatenation of two traces. -/
def SendResult.append (a b : SendResult) : SendResult :=
  ⟨a.responses ++ b.responses, a.setClockCalls + b.setClockCalls,
   a.openCalls + b.openCalls, a.issueCalls + b.issueCalls,
   a.openUrls ++ b.openUrls⟩

/-- Concatenation of a list of traces. -/
def combineResults (l : List SendResult) : SendResult :=
  l.foldr SendResult.append SendResult.empty

/-- The continuation `sendRequest` hands to `setClock`
(`[request, onResponse, this](bool success)`), as the trace one
invocation of it produces.  On failure it delivers the clock-sync
error response; on success it builds the URL, attempts `http.begin`,
and either delivers the open-failure response or issues the exchange
and delivers the code-dependent response, constructing a `BodyStream`
from the declared length when the code is positive. -/
def onClockSet (req : Request) (env : Env) (success : Bool) :
    SendResult :=
  if success = false then
    ⟨[(Branch.clockFail,
       ⟨some "could not synchronize the time", -1, none⟩)], 0, 0, 0, []⟩
  else
    if env.openOk then
      if env.httpCode > 0 then
        ⟨[(Branch.codeSuccess,
           ⟨none, env.httpCode, some (BodyStream.init env.declaredLength)⟩)],
         0, 1, 1, [buildUrl req.baseUrl req.path]⟩
      else
        ⟨[(Branch.codeNonPos,
           ⟨some (env.errorText env.httpCode), env.httpCode, none⟩)],
         0, 1, 1, [buildUrl req.baseUrl req.path]⟩
    else
      ⟨[(Branch.openFail, ⟨some "unable to connect", -1, none⟩)],
       0, 1, 0, [buildUrl req.baseUrl req.path]⟩

/-- The callback `sendRequest` hands to `wifiManager->connect`, as the
trace one invocation of it with the given status produces.  A status
other than `WL_CONNECTED` delivers the WiFi-failure response and stops;
otherwise `setClock` is invoked once and the clock continuation runs
once per `onClockSet` event the polling collaborator fires. -/
def onConnect (req : Request) (env : Env) (status : WlStatus) :
    SendResult :=
  if status ≠ WlStatus.connected then
    ⟨[(Branch.wifiFail, ⟨some "could not connect to WiFi", -1, none⟩)],
     0, 0, 0, []⟩
  else
    let sub := combineResults
      ((setClockEvents env.clockTicks).map
        (fun e => onClockSet req env e.2))
    { sub with setClockCalls := sub.setClockCalls + 1 }

/-- `HTTPSClient::sendRequest`: registers the connect callback with the
connectivity collaborator; `statuses` is the list of statuses with
which that collaborator invokes the callback (its contract says it
calls back exactly once, i.e. `statuses` has length 1). -/
def sendRequest (req : Request) (env : Env) (statuses : List WlStatus) :
    SendResult :=
  combineResults (statuses.map (onConnect req env))

/-- The spec's Response invariant (§3): a negative status has no body,
a positive status has a body, a non-positive status has no body, and
`error` is present whenever the body is absent. -/
def responseOk (r : Response) : Prop :=
  (r.statusCode < 0 → r.body = none) ∧
  (0 < r.statusCode → r.body ≠ none) ∧
  (r.statusCode ≤ 0 → r.body = none) ∧
  (r.body = none → r.error ≠ none)

/-- A concrete request used to instantiate the universally quantified
theorems at specific inputs. -/
def reqEx : Request :=
  ⟨"https://api.example.com", "/v1/ping", HTTP_GET, "",
   [("Accept", "application/json")]⟩

/-- A concrete collaborator behaviour: clock syncs on the first tick,
connection open succeeds, exchange returns 200 with declared length 2. -/
def envEx : Env := ⟨[600000], true, 200, fun _ => "engine error", 2⟩

/-- A concrete collaborator behaviour whose clock never reaches the
threshold before the polling deadline. -/
def envTimeoutEx : Env := ⟨[0, 100], true, 200, fun _ => "engine error", 2⟩

theorem SendResult.append_empty (a : SendResult) :
    a.append SendResult.empty = a := by
  simp [SendResult.append, SendResult.empty]

theorem SendResult.responses_append (a b : SendResult) :
    (a.append b).responses = a.responses ++ b.responses := rfl

theorem SendResult.openUrls_append (a b : SendResult) :
    (a.append b).openUrls = a.openUrls ++ b.openUrls := rfl

theorem combineResults_singleton (a : SendResult) :
    combineResults [a] = a := by
  simp [combineResults, SendResult.append_empty]

theorem mem_combineResults_responses {br : Branch × Response} :
    ∀ l : List SendResult, br ∈ (combineResults l).responses →
      ∃ x ∈ l, br ∈ x.responses := by
  intro l
  induction l with
  | nil => intro h; simp [combineResults, SendResult.empty] at h
  | cons a as ih =>
    intro h
    simp only [combineResults, List.foldr_cons] at h
    rw [SendResult.responses_append] at h
    rcases List.mem_append.mp h with h1 | h2
    · exact ⟨a, List.mem_cons_self a as, h1⟩
    · obtain ⟨x, hx, hbr⟩ := ih h2
      exact ⟨x, List.mem_cons_of_mem a hx, hbr⟩

theorem mem_combineResults_openUrls {u : String} :
    ∀ l : List SendResult, u ∈ (combineResults l).openUrls →
      ∃ x ∈ l, u ∈ x.openUrls := by
  intro l
  induction l with
  | nil => intro h; simp [combineResults, SendResult.empty] at h
  | cons a as ih =>
    intro h
    simp only [combineResults, List.foldr_cons] at h
    rw [SendResult.openUrls_append] at h
    rcases List.mem_append.mp h with h1 | h2
    · exact ⟨a, List.mem_cons_self a as, h1⟩
    · obtain ⟨x, hx, hbr⟩ := ih h2
      exact ⟨x, List.mem_cons_of_mem a hx, hbr⟩

theorem responseOk_of_pos (code : Int) (hc : 0 < code) (s : BodyStream) :
    responseOk ⟨none, code, some s⟩ := by
  unfold responseOk
  dsimp only
  exact ⟨fun h => absurd h (by omega), fun _ => by simp,
         fun h => absurd h (by omega), fun h => by simp at h⟩

theorem responseOk_of_err (msg : String) (code : Int) (hc : code ≤ 0) :
    responseOk ⟨some msg, code, none⟩ := by
  unfold responseOk
  dsimp only
  exact ⟨fun _ => rfl, fun h => absurd h (by omega),
         fun _ => rfl, fun _ => by simp⟩

theorem onClockSet_responses_singleton (req : Request) (env : Env)
    (b : Bool) : ∃ br, (onClockSet req env b).responses = [br] := by
  unfold onClockSet
  cases b with
  | false => exact ⟨_, rfl⟩
  | true =>
    rw [if_neg (by simp)]
    by_cases ho : env.openOk
    · rw [if_pos ho]
      by_cases hc : env.httpCode > 0
      · rw [if_pos hc]; exact ⟨_, rfl⟩
      · rw [if_neg hc]; exact ⟨_, rfl⟩
    · rw [if_neg ho]; exact ⟨_, rfl⟩

theorem onConnect_responses_singleton (req : Request) (env : Env)
    (s : WlStatus) : ∃ br, (onConnect req env s).responses = [br] := by
  by_cases hs : s = WlStatus.connected
  · subst hs
    obtain ⟨j, b, hev⟩ := pollEvents_singleton env.clockTicks 0
    obtain ⟨br, hbr⟩ := onClockSet_responses_singleton req env b
    refine ⟨br, ?_⟩
    have hset : setClockEvents env.clockTicks = [(j, b)] := hev
    simp [onConnect, hset, combineResults_singleton, hbr]
  · refine ⟨(Branch.wifiFail, ⟨some "could not connect to WiFi", -1, none⟩), ?_⟩
    unfold onConnect
    rw [if_pos hs]

theorem onClockSet_invariant (req : Request) (env : Env) (b : Bool) :
    ∀ br ∈ (onClockSet req env b).responses, responseOk br.2 := by
  unfold onClockSet
  cases b with
  | false =>
    rw [if_pos rfl]
    intro br hbr
    rw [List.mem_singleton] at hbr
    subst hbr
    exact responseOk_of_err _ _ (by norm_num)
  | true =>
    rw [if_neg (by simp)]
    by_cases ho : env.openOk
    · rw [if_pos ho]
      by_cases hc : env.httpCode > 0
      · rw [if_pos hc]
        intro br hbr
        rw [List.mem_singleton] at hbr
        subst hbr
        exact responseOk_of_pos _ hc _
      · rw [if_neg hc]
        intro br hbr
        rw [List.mem_singleton] at hbr
        subst hbr
        exact responseOk_of_err _ _ (by omega)
    · rw [if_neg ho]
      intro br hbr
      rw [List.mem_singleton] at hbr
      subst hbr
      exact responseOk_of_err _ _ (by norm_num)

theorem onConnect_invariant (req : Request) (env : Env) (s : WlStatus) :
    ∀ br ∈ (onConnect req env s).responses, responseOk br.2 := by
  intro br hbr
  by_cases hs : s = WlStatus.connected
  · subst hs
    simp only [onConnect, ne_eq, not_true_eq_false, if_neg,
      not_false_eq_true, ite_false] at hbr
    obtain ⟨x, hx, hbrx⟩ := mem_combineResults_responses _ hbr
    obtain ⟨e, he, hfe⟩ := List.mem_map.mp hx
    subst hfe
    exact onClockSet_invariant req env e.2 br hbrx
  · unfold onConnect at hbr
    rw [if_pos hs] at hbr
    rw [List.mem_singleton] at hbr
    subst hbr
    exact responseOk_of_err _ _ (by norm_num)

theorem onClockSet_url (req : Request) (env : Env) (b : Bool) :
    ∀ u ∈ (onClockSet req env b).openUrls,
      u = buildUrl req.baseUrl req.path := by
  intro u hu
  cases b with
  | false => simp [onClockSet] at hu
  | true =>
    by_cases ho : env.openOk
    · by_cases hc : env.httpCode > 0 <;>
        simpa [onClockSet, ho, hc] using hu
    · simpa [onClockSet, ho] using hu

theorem onConnect_url (req : Request) (env : Env) (s : WlStatus) :
    ∀ u ∈ (onConnect req env s).openUrls,
      u = buildUrl req.baseUrl req.path := by
  intro u hu
  by_cases hs : s = WlStatus.connected
  · subst hs
    simp only [onConnect, ne_eq, not_true_eq_false, if_neg,
      not_false_eq_true, ite_false] at hu
    obtain ⟨x, hx, hux⟩ := mem_combineResults_openUrls _ hu
    obtain ⟨e, he, hfe⟩ := List.mem_map.mp hx
    subst hfe
    exact onClockSet_url req env e.2 u hux
  · unfold onConnect at hu
    rw [if_pos hs] at hu
    simp at hu

theorem sendRequest_cons (req : Request) (env : Env) (s : WlStatus)
    (ss : List WlStatus) :
    sendRequest req env (s :: ss) =
      (onConnect req env s).append (sendRequest req env ss) := rfl

/-- C1: for every invocation of `sendRequest`, assuming the
connectivity collaborator calls its callback exactly once (the status
list is `[s]`) — the polling loop firing exactly one of
predicate-satisfied / timeout is itself established by
`pollEvents_singleton` — the `onResponse` continuation is invoked
exactly once, from exactly one branch: the delivered response list is a
singleton, tagged with a single branch. -/
theorem C1_continuation_exactly_once (req : Request) (env : Env)
    (s : WlStatus) :
    ∃ b r, (sendRequest req env [s]).responses = [(b, r)] := by
  obtain ⟨br, hbr⟩ := onConnect_responses_singleton req env s
  refine ⟨br.1, br.2, ?_⟩
  rw [sendRequest_cons]
  have : sendRequest req env [] = SendResult.empty := rfl
  rw [SendResult.responses_append]
  simp [this, SendResult.empty, hbr]

/-- C2: every `Response` delivered by `sendRequest` satisfies the
invariant: a negative `statusCode` implies the body is absent, a
positive `statusCode` implies the body is present, any non-positive
`statusCode` implies the body is absent, and `error` is present
whenever the body is absent. -/
theorem C2_response_invariant (req : Request) (env : Env)
    (statuses : List WlStatus) :
    ∀ br ∈ (sendRequest req env statuses).responses,
      (br.2.statusCode < 0 → br.2.body = none) ∧
      (0 < br.2.statusCode → br.2.body ≠ none) ∧
      (br.2.statusCode ≤ 0 → br.2.body = none) ∧
      (br.2.body = none → br.2.error ≠ none) := by
  induction statuses with
  | nil => intro br hbr; simp [sendRequest, combineResults, SendResult.empty] at hbr
  | cons s ss ih =>
    intro br hbr
    rw [sendRequest_cons, SendResult.responses_append] at hbr
    rcases List.mem_append.mp hbr with h1 | h2
    · exact onConnect_invariant req env s br h1
    · exact ih br h2

/-- C2 witness: the invariant instantiated on the concrete successful
exchange of `reqEx` / `envEx` (status 200, declared length 2). -/
theorem C2_response_invariant_witness :
    (Branch.codeSuccess, (⟨none, 200, some ⟨2⟩⟩ : Response)) ∈
      (sendRequest reqEx envEx [WlStatus.connected]).responses ∧
    ((200 : Int) < 0 → (some (⟨2⟩ : BodyStream) = none)) := by
  have hmem : (Branch.codeSuccess, (⟨none, 200, some ⟨2⟩⟩ : Response)) ∈
      (sendRequest reqEx envEx [WlStatus.connected]).responses := by decide
  exact ⟨hmem,
    (C2_response_invariant reqEx envEx [WlStatus.connected] _ hmem).1⟩

/-- C3: a `BodyStream` with non-negative `bytesLeft` returns 0 from
`readBytes` without touching the connection when `bytesLeft == 0`;
otherwise it requests `min(bytesLeft, length)` bytes from the
connection, decrements `bytesLeft` by the count actually read and
returns that count; with declared length 10 and full reads of size
4, 4, 4, 4 the returned counts are 4, 4, 2, 0 (the connection able to
supply every requested byte). -/
theorem C3_readBytes_bounded (s : BodyStream) (connRead : Nat → Nat)
    (length : Nat) (hnn : 0 ≤ s.bytesLeft) (hw : s.bytesLeft < 2 ^ 31) :
    (s.bytesLeft = 0 → s.readBytes connRead length = ⟨0, s, false⟩) ∧
    (s.bytesLeft ≠ 0 →
      s.readBytes connRead length =
        ⟨connRead (min s.bytesLeft.toNat length),
         ⟨s.bytesLeft - connRead (min s.bytesLeft.toNat length)⟩, true⟩) ∧
    ((BodyStream.init 10).readBytes id 4).count = 4 ∧
    ((((BodyStream.init 10).readBytes id 4).stream.readBytes id 4).count = 4) ∧
    (((((BodyStream.init 10).readBytes id 4).stream.readBytes id 4).stream.readBytes
        id 4).count = 2) ∧
    ((((((BodyStream.init 10).readBytes id 4).stream.readBytes id 4).stream.readBytes
        id 4).stream.readBytes id 4) = ⟨0, ⟨0⟩, false⟩) := by
  have hmod : toSizeT s.bytesLeft = s.bytesLeft.toNat := by
    unfold toSizeT sizeTMod
    rw [Int.emod_eq_of_lt hnn (by push_cast; omega)]
  refine ⟨?_, ?_, by decide, by decide, by decide, by decide⟩
  · intro h0
    simp [BodyStream.readBytes, h0]
  · intro hne
    have hpos : s.bytesLeft > 0 := lt_of_le_of_ne hnn (Ne.symm hne)
    simp [BodyStream.readBytes, hne, hpos, hmod]

/-- C3 witness: the bounded-read equations instantiated at
`bytesLeft = 5`, a full-supply connection and a requested length 3. -/
theorem C3_readBytes_bounded_witness :
    (0 : Int) ≤ (BodyStream.init 5).bytesLeft ∧
    (BodyStream.init 5).readBytes id 3 = ⟨3, ⟨2⟩, true⟩ := by
  refine ⟨by decide, ?_⟩
  have h := (C3_readBytes_bounded (BodyStream.init 5) id 3 (by decide)
    (by decide)).2.1 (by decide)
  rw [h]
  rfl

/-- C4: the clock synchronizer's success continuation fires exactly
once, on exactly the first poll tick at which the observed time reaches
the fixed threshold `8 * 3600 * 2 = 57600` seconds, and never on any
earlier tick: if tick `j` is the first observation at or above the
threshold, the whole `onClockSet` trace is the single invocation
`(j, true)`. -/
theorem C4_clock_success_first_hit (ticks : List Int) (j : Nat)
    (hj : j < ticks.length)
    (hearlier : ∀ k (hk : k < j),
      ticks.get ⟨k, Nat.lt_trans hk hj⟩ < clockThreshold)
    (hhit : clockThreshold ≤ ticks.get ⟨j, hj⟩) :
    clockThreshold = 57600 ∧ setClockEvents ticks = [(j, true)] := by
  refine ⟨by norm_num [clockThreshold], ?_⟩
  have h := pollEvents_first_hit ticks j hj hearlier hhit 0
  simpa [setClockEvents] using h

/-- C4 witness: a simulated clock reporting 0, 0, then 600000 fires the
success continuation exactly on the third tick. -/
theorem C4_clock_success_first_hit_witness :
    setClockEvents [0, 0, 600000] = [(2, true)] := by
  refine (C4_clock_success_first_hit [0, 0, 600000] 2 (by norm_num) ?_ ?_).2
  · intro k hk
    interval_cases k
    · show (0 : Int) < clockThreshold
      norm_num [clockThreshold]
    · show (0 : Int) < clockThreshold
      norm_num [clockThreshold]
  · show clockThreshold ≤ (600000 : Int)
    norm_num [clockThreshold]

/-- C5: when the connectivity callback reports a status other than
`WL_CONNECTED`, `sendRequest` delivers exactly the response
`{error: "could not connect to WiFi", statusCode: -1, body: none}` and
stops: zero calls to `setClock`, zero connection-open attempts and zero
issued exchanges. -/
theorem C5_wifi_failure_stops (req : Request) (env : Env) (s : WlStatus)
    (hs : s ≠ WlStatus.connected) :
    sendRequest req env [s] =
      ⟨[(Branch.wifiFail, ⟨some "could not connect to WiFi", -1, none⟩)],
       0, 0, 0, []⟩ := by
  rw [sendRequest_cons]
  have h0 : sendRequest req env [] = SendResult.empty := rfl
  rw [h0, SendResult.append_empty]
  unfold onConnect
  rw [if_pos hs]

/-- C5 witness: the WiFi-failure outcome at the concrete status
`WL_DISCONNECTED`. -/
theorem C5_wifi_failure_stops_witness :
    sendRequest reqEx envEx [WlStatus.disconnected] =
      ⟨[(Branch.wifiFail, ⟨some "could not connect to WiFi", -1, none⟩)],
       0, 0, 0, []⟩ :=
  C5_wifi_failure_stops reqEx envEx WlStatus.disconnected (by decide)

/-- C6: every URL handed to the connection-open operation is exactly
the concatenation of the descriptor's `baseUrl` and `path`, and the
bytes `strcpy` + `strcat` store (content plus terminating NUL) are
bounded by the buffer capacity `strlen(baseUrl) + strlen(path) + 1`
the source computes from the two inputs. -/
theorem C6_url_concatenation (req : Request) (env : Env)
    (statuses : List WlStatus) :
    ∀ u ∈ (sendRequest req env statuses).openUrls,
      u = req.baseUrl ++ req.path ∧
      urlBytesWritten req.baseUrl req.path ≤
        urlBufCapacity req.baseUrl req.path := by
  induction statuses with
  | nil => intro u hu; simp [sendRequest, combineResults, SendResult.empty] at hu
  | cons s ss ih =>
    intro u hu
    rw [sendRequest_cons, SendResult.openUrls_append] at hu
    have hcap : urlBytesWritten req.baseUrl req.path ≤
        urlBufCapacity req.baseUrl req.path := by
      simp [urlBytesWritten, urlBufCapacity, buildUrl, String.length_append]
    rcases List.mem_append.mp hu with h1 | h2
    · exact ⟨onConnect_url req env s u h1, hcap⟩
    · exact ih u h2

/-- C6 witness: the concrete successful exchange hands exactly
`"https://api.example.com" ++ "/v1/ping"` to the open operation. -/
theorem C6_url_concatenation_witness :
    "https://api.example.com/v1/ping" ∈
      (sendRequest reqEx envEx [WlStatus.connected]).openUrls ∧
    "https://api.example.com/v1/ping" = reqEx.baseUrl ++ reqEx.path := by
  have hmem : "https://api.example.com/v1/ping" ∈
      (sendRequest reqEx envEx [WlStatus.connected]).openUrls := by decide
  exact ⟨hmem,
    (C6_url_concatenation reqEx envEx [WlStatus.connected] _ hmem).1⟩

/-- C7: the method-to-wire-token mapping is total: each enumerator maps
to its exact uppercase token and every other (unrecognized/default)
value maps to `"GET"`. -/
theorem C7_method_token_total :
    readMethod HTTP_GET = "GET" ∧ readMethod HTTP_HEAD = "HEAD" ∧
    readMethod HTTP_POST = "POST" ∧ readMethod HTTP_PUT = "PUT" ∧
    readMethod HTTP_PATCH = "PATCH" ∧ readMethod HTTP_DELETE = "DELETE" ∧
    readMethod HTTP_OPTIONS = "OPTIONS" ∧
    ∀ m : Int, m ≠ HTTP_HEAD → m ≠ HTTP_POST → m ≠ HTTP_PUT →
      m ≠ HTTP_PATCH → m ≠ HTTP_DELETE → m ≠ HTTP_OPTIONS →
      readMethod m = "GET" := by
  refine ⟨by decide, by decide, by decide, by decide, by decide,
    by decide, by decide, ?_⟩
  intro m h1 h2 h3 h4 h5 h6
  simp [readMethod, h1, h2, h3, h4, h5, h6]

/-- C7 witness: the out-of-range enum value 42 resolves to `"GET"`. -/
theorem C7_method_token_total_witness : readMethod 42 = "GET" :=
  C7_method_token_total.2.2.2.2.2.2.2 42 (by decide) (by decide)
    (by decide) (by decide) (by decide) (by decide)

/-- C8: when no poll tick before the deadline reaches the clock
threshold, the failure continuation is invoked exactly once (the
`onClockSet` trace is the single timeout invocation), and `sendRequest`
delivers exactly `{error: "could not synchronize the time",
statusCode: -1, body: none}` with one `setClock` call and zero
connection-open attempts and zero issued exchanges. -/
theorem C8_clock_timeout_stops (req : Request) (env : Env)
    (htimeout : ∀ t ∈ env.clockTicks, t < clockThreshold) :
    setClockEvents env.clockTicks = [(env.clockTicks.length, false)] ∧
    sendRequest req env [WlStatus.connected] =
      ⟨[(Branch.clockFail,
         ⟨some "could not synchronize the time", -1, none⟩)],
       1, 0, 0, []⟩ := by
  have hev : setClockEvents env.clockTicks =
      [(env.clockTicks.length, false)] := by
    have h := pollEvents_timeout env.clockTicks htimeout 0
    simpa [setClockEvents] using h
  refine ⟨hev, ?_⟩
  rw [sendRequest_cons]
  have h0 : sendRequest req env [] = SendResult.empty := rfl
  rw [h0, SendResult.append_empty]
  simp only [onConnect, ne_eq, not_true_eq_false, if_neg,
    not_false_eq_true, ite_false, hev, List.map_cons, List.map_nil]
  rw [combineResults_singleton]
  rfl

/-- C8 witness: the clock-timeout outcome with concrete observations
0 and 100, both below the threshold. -/
theorem C8_clock_timeout_stops_witness :
    sendRequest reqEx envTimeoutEx [WlStatus.connected] =
      ⟨[(Branch.clockFail,
         ⟨some "could not synchronize the time", -1, none⟩)],
       1, 0, 0, []⟩ :=
  (C8_clock_timeout_stops reqEx envTimeoutEx (by decide)).2

/-- C9: `BodyStream::available` returns 0 whenever the underlying
connection is disconnected, and otherwise returns the current
`bytesLeft`. -/
theorem C9_available (s : BodyStream) :
    s.available false = 0 ∧ s.available true = s.bytesLeft :=
  ⟨rfl, rfl⟩

/-- C10 counterexample: with `bytesLeft = -2` the claim that every call
`readBytes(buffer, maxLen)` requests `maxLen` bytes fails at
`maxLen = 2^32 - 1` (`SIZE_MAX`): the conversion of -2 to `size_t` is
`2^32 - 2`, which does NOT exceed this `maxLen`, so the code requests
`2^32 - 2` bytes, not `maxLen`, and the full-supply read returns
`2^32 - 2`. -/
theorem C10_counterexample :
    ((BodyStream.mk (-2)).readBytes id (2 ^ 32 - 1)).count = 2 ^ 32 - 2 ∧
    ((BodyStream.mk (-2)).readBytes id (2 ^ 32 - 1)).count ≠ 2 ^ 32 - 1 := by
  constructor
  · rfl
  · decide

/-- C10 (amended): when `bytesLeft` is negative the declared
content-length bound is not enforced: `readBytes` always touches the
connection, requesting `min(bytesLeft converted to size_t, maxLen)`
bytes — which equals `maxLen` whenever `maxLen ≤ 2^32 + bytesLeft`
(every realistic `maxLen`, and every `maxLen` at all when
`bytesLeft = -1`) — `bytesLeft` is never decremented (the decrement is
guarded by `bytesLeft > 0`), so every subsequent call behaves the
same. -/
theorem C10_negative_length_unbounded (s : BodyStream)
    (connRead : Nat → Nat) (length : Nat) (hneg : s.bytesLeft < 0) :
    s.readBytes connRead length =
      ⟨connRead (min (toSizeT s.bytesLeft) length), s, true⟩ ∧
    ((length : Int) ≤ (sizeTMod : Int) + s.bytesLeft →
      min (toSizeT s.bytesLeft) length = length) := by
  constructor
  · have hne : s.bytesLeft ≠ 0 := by omega
    have hnpos : ¬ s.bytesLeft > 0 := by omega
    simp [BodyStream.readBytes, hne, hnpos]
  · intro hlen
    have hle : length ≤ toSizeT s.bytesLeft := by
      unfold toSizeT sizeTMod at *
      omega
    exact Nat.min_eq_right hle

/-- C10 amended witness: with `bytesLeft = -1` (the engine's unknown
size sentinel) and a full-supply connection, a read of 5 returns 5 and
leaves `bytesLeft` at -1. -/
theorem C10_negative_length_unbounded_witness :
    (BodyStream.mk (-1)).readBytes id 5 = ⟨5, ⟨-1⟩, true⟩ := by
  have h := C10_negative_length_unbounded (BodyStream.mk (-1)) id 5
    (by norm_num)
  rw [h.1, h.2 (by norm_num [sizeTMod])]
  rfl
